import Mathlib

/-!
Verification of the m3u8-downloader segment acquisition pipeline.

Shallow embedding of the Go sources:
- `internal/validator/ts_validator.go` (ValidateTS)
- `internal/downloader/downloader.go` (downloadFile, downloadSegments, mergeSegments, Download)
- `internal/downloader/parser.go` (ParseSegments)
- `pkg/utils/http.go` (ResolveURL)

The filesystem is modelled as a map from path to file bytes.  Network
behaviour is modelled by an oracle giving the outcome of each fetch attempt
(per retry round and per segment ordinal).  The nondeterministic completion
order of concurrent workers inside one round is modelled by a scheduling
function that permutes the list of ordinals processed in that round; the
per-slot bookkeeping of the Go code is then a fold over that list, which is
faithful because the mutex serialises all bookkeeping updates.
-/

namespace M3U8

/-- The filesystem: a map from path to the bytes stored at that path. -/
def Fs : Type := String → Option (List Nat)

instance : Inhabited Fs := ⟨fun _ => none⟩

/-- Create or truncate-and-write a file (os.Create + write + flush). -/
def fsSet (fs : Fs) (p : String) (v : List Nat) : Fs :=
  fun q => if q = p then some v else fs q

/-- os.Remove. -/
def fsRemove (fs : Fs) (p : String) : Fs :=
  fun q => if q = p then none else fs q

/-- os.RemoveAll on a directory: every path having the directory as a prefix
disappears. -/
def fsRemoveDir (fs : Fs) (dir : String) : Fs :=
  fun q => if dir.data.isPrefixOf q.data then none else fs q

/-! ## Integrity Validator (internal/validator/ts_validator.go, ValidateTS) -/

/-- The loop `for i := 0; i < n; i += 188 { if i+188 <= n && header[i] == 0x47
{ validSyncBytes++ } }` of ValidateTS.  The fuel argument bounds the number of
iterations; since the header buffer holds at most 3*188 = 564 bytes, the loop
runs at most 3 times, so fuel 4 is enough. -/
def countSyncAux (header : List Nat) (n : Nat) : Nat → Nat → Nat
  | 0, _ => 0
  | fuel + 1, i =>
    if i < n then
      (if i + 188 ≤ n ∧ header.getD i 0 = 71 then 1 else 0)
        + countSyncAux header n fuel (i + 188)
    else 0

/-- ValidateTS: read up to 3 TS packets (188*3 bytes) from the start of the
file, reject files shorter than one packet, then require at least one
188-byte window to start with the sync byte 0x47 (= 71). -/
def validateTS (data : List Nat) : Except String Unit :=
  let header := data.take (188 * 3)
  let n := header.length
  if n < 188 then Except.error "file too small to be a valid TS segment"
  else if countSyncAux header n 4 0 = 0 then
    Except.error "no valid TS sync patterns found"
  else Except.ok ()

/-! ## Segment Fetcher (internal/downloader/downloader.go, downloadFile) -/

/-- Outcome of one HTTP fetch attempt, as observed by downloadFile: failure
building the request, non-200 status, os.Create failure, io.Copy failure
(with the bytes partially written so far), Flush failure, os.Rename failure,
or success with the full response body. -/
inductive FetchOutcome where
  | reqError : FetchOutcome
  | httpError (code : Nat) : FetchOutcome
  | createError : FetchOutcome
  | copyError (part : List Nat) : FetchOutcome
  | flushError (part : List Nat) : FetchOutcome
  | renameError (body : List Nat) : FetchOutcome
  | success (body : List Nat) : FetchOutcome
deriving DecidableEq

/-- The temporary path used by downloadFile and mergeSegments:
`fileName + ".tmp"`. -/
def tmpPath (p : String) : String := p ++ ".tmp"

/-- Whether the fetch attempt succeeds (downloadFile returns nil). -/
def fetchOk : FetchOutcome → Bool
  | FetchOutcome.success _ => true
  | _ => false

/-- The sequence of filesystem operations performed by one downloadFile call,
in program order.  On success the body is written to the temporary path first
and the destination is created only by the final rename; on any failure after
os.Create the temporary file is removed. -/
inductive FsOp where
  | create (p : String) : FsOp
  | write (p : String) (data : List Nat) : FsOp
  | remove (p : String) : FsOp
  | rename (src dst : String) : FsOp
deriving DecidableEq

/-- Whether a filesystem operation creates or overwrites the given path. -/
def opCreates (op : FsOp) (p : String) : Prop :=
  match op with
  | FsOp.create q => q = p
  | FsOp.write q _ => q = p
  | FsOp.remove _ => False
  | FsOp.rename _ b => b = p

/-- Effect of one filesystem operation on the filesystem. -/
def applyOp (fs : Fs) : FsOp → Fs
  | FsOp.create p => fsSet fs p []
  | FsOp.write p d => fsSet fs p d
  | FsOp.remove p => fsRemove fs p
  | FsOp.rename a b =>
    match fs a with
    | some d => fsSet (fsRemove fs a) b d
    | none => fs

/-- The filesystem operations of downloadFile for each possible outcome,
read off the Go control flow. -/
def downloadFileOps (fileName : String) : FetchOutcome → List FsOp
  | FetchOutcome.reqError => []
  | FetchOutcome.httpError _ => []
  | FetchOutcome.createError => []
  | FetchOutcome.copyError part =>
    [FsOp.create (tmpPath fileName), FsOp.write (tmpPath fileName) part,
     FsOp.remove (tmpPath fileName)]
  | FetchOutcome.flushError part =>
    [FsOp.create (tmpPath fileName), FsOp.write (tmpPath fileName) part,
     FsOp.remove (tmpPath fileName)]
  | FetchOutcome.renameError body =>
    [FsOp.create (tmpPath fileName), FsOp.write (tmpPath fileName) body,
     FsOp.remove (tmpPath fileName)]
  | FetchOutcome.success body =>
    [FsOp.create (tmpPath fileName), FsOp.write (tmpPath fileName) body,
     FsOp.rename (tmpPath fileName) fileName]

/-- downloadFile: net effect on the filesystem together with the returned
error value.  The error strings for network-level failures are
representative; only the success/failure distinction feeds back into the
scheduler. -/
def downloadFile (fs : Fs) (fileName : String) (oc : FetchOutcome) :
    Fs × Except String Unit :=
  match oc with
  | FetchOutcome.reqError => (fs, Except.error "request error")
  | FetchOutcome.httpError code =>
    (fs, Except.error ("HTTP status code: " ++ toString code))
  | FetchOutcome.createError => (fs, Except.error "create error")
  | FetchOutcome.copyError part =>
    (fsRemove (fsSet fs (tmpPath fileName) part) (tmpPath fileName),
     Except.error "copy error")
  | FetchOutcome.flushError part =>
    (fsRemove (fsSet fs (tmpPath fileName) part) (tmpPath fileName),
     Except.error "flush error")
  | FetchOutcome.renameError body =>
    (fsRemove (fsSet fs (tmpPath fileName) body) (tmpPath fileName),
     Except.error "rename error")
  | FetchOutcome.success body =>
    (fsSet (fsRemove (fsSet fs (tmpPath fileName) body) (tmpPath fileName))
      fileName body,
     Except.ok ())

/-! ## Acquisition Scheduler (internal/downloader/downloader.go,
downloadSegments) -/

/-- Zero padding of fmt.Sprintf "%05d". -/
def pad5 (i : Nat) : String :=
  let s := Nat.repr i
  String.mk (List.replicate (5 - s.length) '0') ++ s

/-- filepath.Join(OutputDir, fmt.Sprintf("segment_%05d.ts", i)). -/
def segPath (dir : String) (i : Nat) : String :=
  dir ++ "/segment_" ++ pad5 i ++ ".ts"

/-- One worker body: download ordinal `i` to its deterministic file name and
record the outcome.  On success the result slot `i` is set (by the only
worker that ever touches that slot); on failure `i` is appended to the
round's failure list.  The mutex of the Go code serialises these updates, so
the round is a fold over the workers in completion order. -/
def attemptOne (dir : String) (att : Nat → FetchOutcome)
    (st : Fs × List (Option String) × List Nat) (i : Nat) :
    Fs × List (Option String) × List Nat :=
  let fileName := segPath dir i
  let r := downloadFile st.1 fileName (att i)
  match r.2 with
  | Except.ok _ => (r.1, st.2.1.set i (some fileName), st.2.2)
  | Except.error _ => (r.1, st.2.1, st.2.2 ++ [i])

/-- One synchronisation-barrier round: all listed ordinals are attempted,
results are recorded in completion order `idxs`, and the round's failure
list starts empty. -/
def runRound (dir : String) (att : Nat → FetchOutcome) (fs : Fs)
    (slots : List (Option String)) (idxs : List Nat) :
    Fs × List (Option String) × List Nat :=
  idxs.foldl (attemptOne dir att) (fs, slots, [])

/-- Backoff before retry round `retryCount`:
`time.Duration(retryCount) * time.Second`, in seconds. -/
def backoffUnits (retryCount : Nat) : Nat := retryCount

/-- Log entry for one executed retry round. -/
structure RoundLog where
  round : Nat
  backoff : Nat
  failedIn : List Nat
  attempted : List Nat
deriving DecidableEq

/-- The retry loop
`for retryCount := 1; retryCount <= MaxRetry; retryCount++`:
stop when the failure set is empty, otherwise sleep `backoffUnits retryCount`
seconds and re-attempt every failed ordinal (in completion order
`sched retryCount failed`), rebuilding the failure list.  `fuel` is the
number of remaining rounds and `r` the current retryCount. -/
def retryRounds (dir : String) (att : Nat → Nat → FetchOutcome)
    (sched : Nat → List Nat → List Nat) :
    Nat → Nat → Fs → List (Option String) → List Nat →
    Fs × List (Option String) × List Nat × List RoundLog
  | 0, _, fs, slots, failed => (fs, slots, failed, [])
  | fuel + 1, r, fs, slots, failed =>
    if failed.isEmpty then (fs, slots, failed, [])
    else
      let attempted := sched r failed
      let s2 := runRound dir (att r) fs slots attempted
      let s3 := retryRounds dir att sched fuel (r + 1) s2.1 s2.2.1 s2.2.2
      (s3.1, s3.2.1, s3.2.2.1,
       RoundLog.mk r (backoffUnits r) failed attempted :: s3.2.2.2)

/-- The whole download phase of downloadSegments: the initial pass over all
`n` ordinals (in completion order `sched 0 (range n)`) followed by up to
`maxRetry` retry rounds.  Returns the filesystem, the result slots, the
ordinals still failed, and the retry-round log. -/
def downloadPhase (dir : String) (maxRetry : Nat)
    (att : Nat → Nat → FetchOutcome) (sched : Nat → List Nat → List Nat)
    (n : Nat) (fs : Fs) :
    Fs × List (Option String) × List Nat × List RoundLog :=
  let s1 := runRound dir (att 0) fs (List.replicate n none)
    (sched 0 (List.range n))
  retryRounds dir att sched maxRetry 1 s1.1 s1.2.1 s1.2.2

/-- The post-retry verification of one slot, with `i` the zero-based ordinal:
an empty slot is a permanent failure; a filled slot must denote an existing,
non-empty file, and pass ValidateTS when validation is enabled. -/
def verifyOne (fs : Fs) (validate : Bool) (i : Nat) (slot : Option String) :
    Except String String :=
  match slot with
  | none =>
    Except.error ("segment " ++ toString (i + 1) ++
      " failed to download after all retries")
  | some file =>
    match fs file with
    | none => Except.error ("cannot access segment file " ++ toString (i + 1))
    | some data =>
      if data.length = 0 then
        Except.error ("segment file " ++ toString (i + 1) ++
          " is empty (0 bytes)")
      else if validate then
        match validateTS data with
        | Except.error e =>
          Except.error ("segment file " ++ toString (i + 1) ++
            " failed integrity check: " ++ e)
        | Except.ok _ => Except.ok file
      else Except.ok file

/-- The `for i, file := range segmentFiles` verification loop, scanning the
slots in ascending ordinal order and stopping at the first problem. -/
def verifySegments (fs : Fs) (validate : Bool) :
    Nat → List (Option String) → Except String (List String)
  | _, [] => Except.ok []
  | i, slot :: rest =>
    match verifyOne fs validate i slot with
    | Except.error e => Except.error e
    | Except.ok f =>
      match verifySegments fs validate (i + 1) rest with
      | Except.error e => Except.error e
      | Except.ok fsR => Except.ok (f :: fsR)

/-- downloadSegments: download phase plus verification, returning the final
filesystem and either the ordered list of verified segment files or the
first error. -/
def downloadSegments (dir : String) (maxRetry : Nat) (validate : Bool)
    (att : Nat → Nat → FetchOutcome) (sched : Nat → List Nat → List Nat)
    (n : Nat) (fs : Fs) : Fs × Except String (List String) :=
  let s := downloadPhase dir maxRetry att sched n fs
  (s.1, verifySegments s.1 validate 0 s.2.1)

/-! ## Merger (internal/downloader/downloader.go, mergeSegments) -/

/-- The merge loop: for each segment file in list order, fail if it is
missing, otherwise stream its bytes onto the temporary output (flushed after
each file).  Returns the filesystem and the missing path, if any. -/
def mergeLoop (fs : Fs) (tmpOut : String) :
    List String → Fs × Option String
  | [] => (fs, none)
  | f :: rest =>
    match fs f with
    | none => (fs, some f)
    | some data =>
      mergeLoop (fsSet fs tmpOut (((fs tmpOut).getD []) ++ data)) tmpOut rest

/-- mergeSegments: create the temporary output, concatenate all segment files
onto it in list order, then remove any pre-existing output and atomically
rename the temporary output into place.  On a missing segment the temporary
output is removed and the error reported. -/
def mergeSegments (fs : Fs) (output : String) (files : List String) :
    Fs × Except String Unit :=
  let tmpOut := tmpPath output
  let fs0 := fsSet fs tmpOut []
  let s := mergeLoop fs0 tmpOut files
  match s.2 with
  | some missing =>
    (fsRemove s.1 tmpOut, Except.error ("segment file missing: " ++ missing))
  | none =>
    let data := (s.1 tmpOut).getD []
    let fs1 := if (s.1 output).isSome then fsRemove s.1 output else s.1
    (fsSet (fsRemove fs1 tmpOut) output data, Except.ok ())

/-- The tail of Download after the playlist has been parsed: download all
segments, merge, then clean up segment files and the staging directory on
success.  On error the error is wrapped and returned with the filesystem
left as the failing step left it. -/
def downloadPipeline (dir output : String) (maxRetry : Nat) (validate : Bool)
    (att : Nat → Nat → FetchOutcome) (sched : Nat → List Nat → List Nat)
    (n : Nat) (fs : Fs) : Fs × Except String Unit :=
  let s := downloadSegments dir maxRetry validate att sched n fs
  match s.2 with
  | Except.error e => (s.1, Except.error ("error downloading segments: " ++ e))
  | Except.ok files =>
    let m := mergeSegments s.1 output files
    match m.2 with
    | Except.error e => (m.1, Except.error ("error merging segments: " ++ e))
    | Except.ok _ =>
      let fsC := files.foldl fsRemove m.1
      (fsRemoveDir fsC dir, Except.ok ())

/-! ## Playlist parsing (internal/downloader/parser.go, ParseSegments;
pkg/utils/http.go, ResolveURL) -/

/-- The observable events of one worker goroutine of downloadSegments, in
program order: it first sends on the semaphore channel (acquiring a slot),
then checks the shared cancellation context; if cancelled it returns without
fetching, and the deferred receive releases the slot; otherwise it runs the
fetch and the deferred receive releases the slot. -/
inductive WEvent where
  | acquireSlot : WEvent
  | cancelCheck : WEvent
  | skipReturn : WEvent
  | runFetch : WEvent
  | releaseSlot : WEvent
deriving DecidableEq

/-- Event trace of one worker, by whether the cancellation signal was raised
before its `select` on ctx.Done(). -/
def workerEvents (cancelled : Bool) : List WEvent :=
  [WEvent.acquireSlot, WEvent.cancelCheck] ++
    (if cancelled then [WEvent.skipReturn, WEvent.releaseSlot]
     else [WEvent.runFetch, WEvent.releaseSlot])

/-! ## Semaphore model (the buffered channel of capacity Threads) -/

/-- Abstract state of the worker population, counting workers by stage:
blocked on the semaphore send, holding a slot but not yet fetching, fetching,
done fetching but not yet released, and finished.  Worker identity is
irrelevant to the in-flight bound, so only counts are kept. -/
structure SemState where
  queued : Nat
  acquired : Nat
  fetching : Nat
  fetched : Nat
  finished : Nat
deriving DecidableEq

/-- Number of semaphore slots currently held: the buffered channel
`make(chan struct{}, Threads)` holds one value per worker between its send
and its deferred receive. -/
def holders (s : SemState) : Nat := s.acquired + s.fetching + s.fetched

/-- Interleaving semantics: a send on the channel (`semaphore <- struct{}{}`)
succeeds only while fewer than `threads` values are buffered; all other
steps are local to one worker.  This covers both the initial pass and every
retry round, since all workers share the single channel. -/
inductive SemStep (threads : Nat) : SemState → SemState → Prop
  | acquire (s : SemState) (hq : 0 < s.queued) (hcap : holders s < threads) :
    SemStep threads s
      (SemState.mk (s.queued - 1) (s.acquired + 1) s.fetching s.fetched
        s.finished)
  | startFetch (s : SemState) (h : 0 < s.acquired) :
    SemStep threads s
      (SemState.mk s.queued (s.acquired - 1) (s.fetching + 1) s.fetched
        s.finished)
  | finishFetch (s : SemState) (h : 0 < s.fetching) :
    SemStep threads s
      (SemState.mk s.queued s.acquired (s.fetching - 1) (s.fetched + 1)
        s.finished)
  | releaseSlot (s : SemState) (h : 0 < s.fetched) :
    SemStep threads s
      (SemState.mk s.queued s.acquired s.fetching (s.fetched - 1)
        (s.finished + 1))

/-- States reachable from `m` workers all queued. -/
def SemReachable (threads m : Nat) (s : SemState) : Prop :=
  Relation.ReflTransGen (SemStep threads) (SemState.mk m 0 0 0 0) s

/-! ## Miscellaneous helpers -/

/-- The last character of a string, used to separate the disjoint families of
paths the pipeline writes: segment files end in 's' (".ts"), temporary files
end in 'p' (".tmp"). -/
def lastChar (s : String) : Option Char := s.data.getLast?

/-- Decidable equality for Except values, needed to evaluate concrete runs. -/
instance exceptDecEq {ε α : Type} [DecidableEq ε] [DecidableEq α] :
    DecidableEq (Except ε α) := fun a b =>
  match a, b with
  | Except.ok x, Except.ok y =>
    if h : x = y then isTrue (by rw [h])
    else isFalse (by intro hc; injection hc; exact h (by assumption))
  | Except.ok _, Except.error _ => isFalse (fun hc => Except.noConfusion hc)
  | Except.error _, Except.ok _ => isFalse (fun hc => Except.noConfusion hc)
  | Except.error x, Except.error y =>
    if h : x = y then isTrue (by rw [h])
    else isFalse (by intro hc; injection hc; exact h (by assumption))

/-! # Theorems -/

/-! ## Filesystem and path lemmas -/

theorem fsSet_self (fs : Fs) (p : String) (v : List Nat) :
    fsSet fs p v p = some v := by
  simp [fsSet]

theorem fsSet_other (fs : Fs) (p q : String) (v : List Nat) (h : q ≠ p) :
    fsSet fs p v q = fs q := by
  simp [fsSet, h]

theorem fsRemove_self (fs : Fs) (p : String) : fsRemove fs p p = none := by
  simp [fsRemove]

theorem fsRemove_other (fs : Fs) (p q : String) (h : q ≠ p) :
    fsRemove fs p q = fs q := by
  simp [fsRemove, h]

theorem tmpPath_data (p : String) :
    (tmpPath p).data = p.data ++ ['.', 't', 'm', 'p'] := rfl

theorem tmpPath_ne_self (p : String) : tmpPath p ≠ p := by
  intro h
  have h2 := congrArg (fun s => s.data.length) h
  simp only [tmpPath_data, List.length_append, List.length_cons,
    List.length_nil] at h2
  omega

theorem tmpPath_inj {a b : String} (h : tmpPath a = tmpPath b) : a = b := by
  have h2 := congrArg String.data h
  rw [tmpPath_data, tmpPath_data] at h2
  have h3 := List.append_cancel_right h2
  cases a
  cases b
  exact congrArg String.mk h3

theorem lastChar_ts (a : String) : lastChar (a ++ ".ts") = some 's' := by
  have hd : (a ++ ".ts").data = a.data ++ ['.', 't', 's'] := rfl
  simp [lastChar, hd, List.getLast?_append]

theorem lastChar_tmp (a : String) : lastChar (tmpPath a) = some 'p' := by
  simp [lastChar, tmpPath_data, List.getLast?_append]

theorem ne_of_lastChar {a b : String} (h : lastChar a ≠ lastChar b) :
    a ≠ b := fun he => h (he ▸ rfl)

theorem lastChar_segPath (dir : String) (i : Nat) :
    lastChar (segPath dir i) = some 's' :=
  lastChar_ts (dir ++ "/segment_" ++ pad5 i)

theorem segPath_ne_tmpPath (dir : String) (i : Nat) (b : String) :
    segPath dir i ≠ tmpPath b := by
  apply ne_of_lastChar
  rw [lastChar_segPath, lastChar_tmp]
  decide

/-! ## Segment Fetcher lemmas -/

theorem downloadFile_untouched (fs : Fs) (f : String) (oc : FetchOutcome)
    (p : String) (hp : p ≠ f) (ht : p ≠ tmpPath f) :
    (downloadFile fs f oc).1 p = fs p := by
  cases oc <;> simp [downloadFile, fsSet, fsRemove, hp, ht]

theorem downloadFile_preserves_none (fs : Fs) (f : String) (oc : FetchOutcome)
    (p : String) (hp : p ≠ f) (h0 : fs p = none) :
    (downloadFile fs f oc).1 p = none := by
  by_cases ht : p = tmpPath f
  · subst ht
    cases oc <;> simp [downloadFile, fsSet, fsRemove, hp, h0]
  · rw [downloadFile_untouched fs f oc p hp ht]
    exact h0

theorem downloadFile_snd_indep (fs fs2 : Fs) (f f2 : String)
    (oc : FetchOutcome) :
    (downloadFile fs f oc).2 = (downloadFile fs2 f2 oc).2 := by
  cases oc <;> rfl

theorem downloadFile_ok_iff (fs : Fs) (f : String) (oc : FetchOutcome) :
    (downloadFile fs f oc).2 = Except.ok () ↔ fetchOk oc = true := by
  cases oc <;> simp [downloadFile, fetchOk]

/-- C5: for every invocation of the Segment Fetcher on fresh destination and
temporary paths (as the Scheduler always supplies): the body goes to the
distinct temporary path first and the destination is only ever created by
the final atomic rename; on success exactly one file (the destination)
appears; on any failure the temporary artifact is deleted, the destination
does not exist, and the filesystem is unchanged. -/
theorem fetcher_atomic (fs : Fs) (fileName : String) (oc : FetchOutcome)
    (hd : fs fileName = none) (ht : fs (tmpPath fileName) = none) :
    (∀ op ∈ downloadFileOps fileName oc, opCreates op fileName →
       op = FsOp.rename (tmpPath fileName) fileName) ∧
    ((downloadFileOps fileName oc).foldl applyOp fs
       = (downloadFile fs fileName oc).1) ∧
    (∀ body, oc = FetchOutcome.success body →
       downloadFileOps fileName oc =
         [FsOp.create (tmpPath fileName),
          FsOp.write (tmpPath fileName) body,
          FsOp.rename (tmpPath fileName) fileName] ∧
       (downloadFile fs fileName oc).1 fileName = some body ∧
       (downloadFile fs fileName oc).1 (tmpPath fileName) = none ∧
       (∀ p, p ≠ fileName → (downloadFile fs fileName oc).1 p = fs p) ∧
       (downloadFile fs fileName oc).2 = Except.ok ()) ∧
    ((downloadFile fs fileName oc).2 ≠ Except.ok () →
       (downloadFile fs fileName oc).1 fileName = none ∧
       (downloadFile fs fileName oc).1 (tmpPath fileName) = none ∧
       (∀ p, (downloadFile fs fileName oc).1 p = fs p)) := by
  have hne : tmpPath fileName ≠ fileName := tmpPath_ne_self fileName
  have hne2 : fileName ≠ tmpPath fileName := fun h => hne h.symm
  refine ⟨?_, ?_, ?_, ?_⟩
  · intro op hop hcr
    cases oc <;>
      simp only [downloadFileOps, List.mem_cons, List.not_mem_nil,
        or_false] at hop <;>
      rcases hop with h | h | h <;> subst h <;>
      simp only [opCreates] at hcr <;>
      first
        | exact absurd hcr hne
        | rfl
  · cases oc <;> funext q <;>
      simp only [downloadFileOps, List.foldl_cons, List.foldl_nil, applyOp,
        downloadFile, fsSet_self] <;>
      by_cases hq : q = fileName <;>
      by_cases hq2 : q = tmpPath fileName <;>
      simp_all [fsSet, fsRemove]
  · intro body hoc
    subst hoc
    refine ⟨rfl, ?_, ?_, ?_, rfl⟩
    · simp [downloadFile, fsSet_self]
    · simp [downloadFile, fsSet, fsRemove, hne]
    · intro p hp
      by_cases hq : p = tmpPath fileName
      · subst hq
        simp [downloadFile, fsSet, fsRemove, hne, ht]
      · simp [downloadFile, fsSet, fsRemove, hp, hq]
  · intro hfail
    refine ⟨?_, ?_, ?_⟩
    · cases oc <;> simp_all [downloadFile, fsSet, fsRemove, hne, hne2]
    · cases oc <;> simp_all [downloadFile, fsSet, fsRemove, hne, hne2]
    · intro p
      cases oc <;> by_cases hq : p = tmpPath fileName <;>
        simp_all [downloadFile, fsSet, fsRemove]

/-! ## Integrity Validator lemmas -/

theorem exists_lt_three {P : Nat → Prop} :
    (∃ k, k < 3 ∧ P k) ↔ P 0 ∨ P 1 ∨ P 2 := by
  constructor
  · rintro ⟨k, hk, hp⟩
    interval_cases k
    · exact Or.inl hp
    · exact Or.inr (Or.inl hp)
    · exact Or.inr (Or.inr hp)
  · rintro (h | h | h)
    · exact ⟨0, by omega, h⟩
    · exact ⟨1, by omega, h⟩
    · exact ⟨2, by omega, h⟩

theorem countSyncAux_zero_iff (header : List Nat) (n : Nat) (hn : n ≤ 564) :
    (countSyncAux header n 4 0 = 0 ↔
      ¬ ((188 ≤ n ∧ header.getD 0 0 = 71) ∨
         (376 ≤ n ∧ header.getD 188 0 = 71) ∨
         (564 ≤ n ∧ header.getD 376 0 = 71))) := by
  simp only [countSyncAux]
  norm_num
  constructor
  · intro h
    refine ⟨fun h188 => (h (by omega)).1 h188, fun h376 => ?_, fun h564 => ?_⟩
    · exact ((h (by omega)).2 (by omega)).1 h376
    · exact (((h (by omega)).2 (by omega)).2 (by omega)).1 h564
  · intro h hpos
    exact ⟨h.1, fun h188 => ⟨h.2.1, fun h376 =>
      ⟨h.2.2, fun h564 => by omega⟩⟩⟩

/-- C3: the Integrity Validator rejects a segment of fewer than 188 readable
bytes as too small; otherwise it accepts the segment iff among the complete
188-byte windows inside the first 3*188 bytes read at least one starts with
the sync byte 0x47 (= 71), rejecting with the no-valid-sync-pattern error
otherwise. -/
theorem validator_spec (data : List Nat) :
    (data.length < 188 →
      validateTS data
        = Except.error "file too small to be a valid TS segment") ∧
    (188 ≤ data.length →
      ((validateTS data = Except.ok ()) ↔
        ∃ k, k < 3 ∧ 188 * (k + 1) ≤ min (188 * 3) data.length ∧
          data.getD (188 * k) 0 = 71) ∧
      ((¬ ∃ k, k < 3 ∧ 188 * (k + 1) ≤ min (188 * 3) data.length ∧
          data.getD (188 * k) 0 = 71) →
        validateTS data = Except.error "no valid TS sync patterns found")) := by
  have hlen : (data.take (188 * 3)).length = min (188 * 3) data.length := by
    rw [List.length_take]
  have hgetD : ∀ k, k < 3 →
      (data.take (188 * 3)).getD (188 * k) 0 = data.getD (188 * k) 0 := by
    intro k hk
    rw [List.getD_eq_getElem?_getD, List.getD_eq_getElem?_getD,
      List.getElem?_take, if_pos (by omega)]
  have hn564 : (data.take (188 * 3)).length ≤ 564 := by
    rw [hlen]; omega
  have hiff := countSyncAux_zero_iff (data.take (188 * 3))
    (data.take (188 * 3)).length hn564
  constructor
  · intro hsmall
    have h1 : (data.take (188 * 3)).length < 188 := by rw [hlen]; omega
    simp only [validateTS]
    rw [if_pos h1]
  · intro hbig
    have h1 : ¬ (data.take (188 * 3)).length < 188 := by rw [hlen]; omega
    have hshape : (∃ k, k < 3 ∧ 188 * (k + 1) ≤ min (188 * 3) data.length ∧
        data.getD (188 * k) 0 = 71) ↔
        ((188 ≤ (data.take (188 * 3)).length ∧
          (data.take (188 * 3)).getD 0 0 = 71) ∨
         (376 ≤ (data.take (188 * 3)).length ∧
          (data.take (188 * 3)).getD 188 0 = 71) ∨
         (564 ≤ (data.take (188 * 3)).length ∧
          (data.take (188 * 3)).getD 376 0 = 71)) := by
      rw [exists_lt_three]
      rw [hgetD 0 (by omega), hgetD 1 (by omega), hgetD 2 (by omega), hlen]
    constructor
    · rw [hshape]
      simp only [validateTS]
      rw [if_neg h1]
      by_cases hz : countSyncAux (data.take (188 * 3))
          (data.take (188 * 3)).length 4 0 = 0
      · rw [if_pos hz]
        simp only [hiff.mp hz, iff_false]
        intro hcontra
        exact Except.noConfusion hcontra
      · rw [if_neg hz]
        constructor
        · intro _
          by_contra hno
          exact hz (hiff.mpr hno)
        · intro _
          rfl
    · intro hno
      rw [hshape] at hno
      simp only [validateTS]
      rw [if_neg h1, if_pos (hiff.mpr hno)]

set_option maxRecDepth 40000 in
/-- Witness for C3 at a concrete input. -/
theorem validator_spec_witness :
    ((List.replicate 100 0 : List Nat).length < 188) ∧
    validateTS (List.replicate 100 0)
      = Except.error "file too small to be a valid TS segment" :=
  ⟨by decide, (validator_spec (List.replicate 100 0)).1 (by decide)⟩

/-- Witness for C5 at a concrete input. -/
theorem fetcher_atomic_witness :
    ((fun _ => none : Fs) "f" = none) ∧
    ((fun _ => none : Fs) (tmpPath "f") = none) ∧
    (downloadFile (fun _ => none) "f" (FetchOutcome.success [1, 2])).1 "f"
      = some [1, 2] :=
  ⟨rfl, rfl,
    ((fetcher_atomic (fun _ => none) "f" (FetchOutcome.success [1, 2])
      rfl rfl).2.2.1 [1, 2] rfl).2.1⟩

/-! ## Playlist parser lemmas -/

/-- C8 counterexample: once the cancellation signal is raised, a
queued-but-not-yet-started worker does skip its fetch attempt, but it has
already consumed a semaphore slot, because the goroutine body sends on the
semaphore channel before it checks ctx.Done(); this refutes the claim that
the skip happens without consuming a semaphore slot. -/
theorem cancel_skip_counterexample :
    WEvent.acquireSlot ∈ workerEvents true ∧
    WEvent.runFetch ∉ workerEvents true := by decide

/-- C8 (amended): once the cancellation signal is raised, a
queued-but-not-yet-started worker first acquires a semaphore slot, then
observes the signal, skips its fetch attempt, and releases the slot. -/
theorem cancel_skip_amended :
    workerEvents true =
      [WEvent.acquireSlot, WEvent.cancelCheck, WEvent.skipReturn,
       WEvent.releaseSlot] ∧
    WEvent.runFetch ∉ workerEvents true ∧
    WEvent.releaseSlot ∈ workerEvents true := by decide

/-! ## Semaphore bound (C7) -/

theorem semReachable_holders_le (threads m : Nat) (s : SemState)
    (h : SemReachable threads m s) : holders s ≤ threads := by
  induction h with
  | refl => simp [holders]
  | tail _ hstep ih =>
    cases hstep <;> simp only [holders] at * <;> omega

/-- C7: in every state reachable by any interleaving of any number of
workers gated by the single counting semaphore of size `threads` (shared by
the initial pass and all retry rounds), at most `threads` fetch operations
are in flight simultaneously, and the number of held slots never exceeds
`threads`. -/
theorem semaphore_cap (threads m : Nat) (s : SemState)
    (h : SemReachable threads m s) :
    s.fetching ≤ threads ∧ holders s ≤ threads := by
  have hh := semReachable_holders_le threads m s h
  refine ⟨?_, hh⟩
  simp only [holders] at hh
  omega

/-- Witness for C7: a concrete reachable state with one fetch in flight. -/
theorem semaphore_cap_witness :
    SemReachable 3 5 (SemState.mk 4 0 1 0 0) ∧
    ((SemState.mk 4 0 1 0 0).fetching ≤ 3 ∧
     holders (SemState.mk 4 0 1 0 0) ≤ 3) := by
  have hr : SemReachable 3 5 (SemState.mk 4 0 1 0 0) :=
    Relation.ReflTransGen.tail
      (Relation.ReflTransGen.tail Relation.ReflTransGen.refl
        (SemStep.acquire (SemState.mk 5 0 0 0 0) (by decide) (by decide)))
      (SemStep.startFetch (SemState.mk 4 1 0 0 0) (by decide))
  exact ⟨hr, semaphore_cap 3 5 (SemState.mk 4 0 1 0 0) hr⟩

/-! ## Scheduler round lemmas -/

theorem attemptOne_char (dir : String) (att : Nat → FetchOutcome)
    (st : Fs × List (Option String) × List Nat) (i : Nat) :
    (attemptOne dir att st i).2.1 =
      (if fetchOk (att i) = true then st.2.1.set i (some (segPath dir i))
       else st.2.1) ∧
    (attemptOne dir att st i).2.2 =
      (if fetchOk (att i) = true then st.2.2 else st.2.2 ++ [i]) ∧
    (attemptOne dir att st i).1 =
      (downloadFile st.1 (segPath dir i) (att i)).1 := by
  cases h : att i <;> simp [attemptOne, downloadFile, fetchOk, h]

theorem attemptOne_slots_len (dir : String) (att : Nat → FetchOutcome)
    (st : Fs × List (Option String) × List Nat) (i : Nat) :
    ((attemptOne dir att st i).2.1).length = st.2.1.length := by
  rw [(attemptOne_char dir att st i).1]
  split <;> simp

theorem foldAttempt_slots_len (dir : String) (att : Nat → FetchOutcome) :
    ∀ (idxs : List Nat) (st : Fs × List (Option String) × List Nat),
      ((idxs.foldl (attemptOne dir att) st).2.1).length = st.2.1.length := by
  intro idxs
  induction idxs with
  | nil => intro st; rfl
  | cons i rest ih =>
    intro st
    rw [List.foldl_cons, ih, attemptOne_slots_len]

theorem foldAttempt_fs_untouched (dir : String) (att : Nat → FetchOutcome)
    (p : String) :
    ∀ (idxs : List Nat) (st : Fs × List (Option String) × List Nat),
      (∀ i ∈ idxs, p ≠ segPath dir i ∧ p ≠ tmpPath (segPath dir i)) →
      ((idxs.foldl (attemptOne dir att) st).1) p = st.1 p := by
  intro idxs
  induction idxs with
  | nil => intro st _; rfl
  | cons i rest ih =>
    intro st h
    rw [List.foldl_cons, ih _ (fun j hj => h j (List.mem_cons_of_mem _ hj))]
    rw [(attemptOne_char dir att st i).2.2]
    exact downloadFile_untouched st.1 (segPath dir i) (att i) p
      (h i (List.mem_cons_self _ _)).1 (h i (List.mem_cons_self _ _)).2

theorem foldAttempt_tmp_none (dir : String) (att : Nat → FetchOutcome)
    (j : Nat) :
    ∀ (idxs : List Nat) (st : Fs × List (Option String) × List Nat),
      st.1 (tmpPath (segPath dir j)) = none →
      ((idxs.foldl (attemptOne dir att) st).1) (tmpPath (segPath dir j))
        = none := by
  intro idxs
  induction idxs with
  | nil => intro st h; exact h
  | cons i rest ih =>
    intro st h
    rw [List.foldl_cons]
    apply ih
    rw [(attemptOne_char dir att st i).2.2]
    exact downloadFile_preserves_none st.1 (segPath dir i) (att i)
      (tmpPath (segPath dir j))
      (fun hc => segPath_ne_tmpPath dir i (segPath dir j) hc.symm) h

theorem foldAttempt_slots_get (dir : String) (att : Nat → FetchOutcome)
    (j : Nat) :
    ∀ (idxs : List Nat) (st : Fs × List (Option String) × List Nat),
      ((idxs.foldl (attemptOne dir att) st).2.1)[j]? =
        if j ∈ idxs ∧ fetchOk (att j) = true then
          (if j < st.2.1.length then some (some (segPath dir j)) else none)
        else st.2.1[j]? := by
  intro idxs
  induction idxs with
  | nil => intro st; simp
  | cons i rest ih =>
    intro st
    rw [List.foldl_cons, ih, attemptOne_slots_len,
      (attemptOne_char dir att st i).1]
    by_cases hji : j = i
    · subst hji
      by_cases hok : fetchOk (att j) = true <;>
        by_cases hmem : j ∈ rest <;>
        simp [hok, hmem, List.getElem?_set]
    · have hij : i ≠ j := fun h => hji h.symm
      by_cases hok : fetchOk (att j) = true <;>
        by_cases hmem : j ∈ rest <;>
        by_cases hoki : fetchOk (att i) = true <;>
        simp [hok, hmem, hoki, hji, hij, List.getElem?_set]

theorem foldAttempt_failed (dir : String) (att : Nat → FetchOutcome) :
    ∀ (idxs : List Nat) (st : Fs × List (Option String) × List Nat),
      (idxs.foldl (attemptOne dir att) st).2.2 =
        st.2.2 ++ idxs.filter (fun i => !fetchOk (att i)) := by
  intro idxs
  induction idxs with
  | nil => intro st; simp
  | cons i rest ih =>
    intro st
    rw [List.foldl_cons, ih, (attemptOne_char dir att st i).2.1]
    by_cases hok : fetchOk (att i) = true <;>
      simp [hok, List.filter_cons]

theorem runRound_failed (dir : String) (att : Nat → FetchOutcome) (fs : Fs)
    (slots : List (Option String)) (idxs : List Nat) :
    (runRound dir att fs slots idxs).2.2 =
      idxs.filter (fun i => !fetchOk (att i)) := by
  rw [runRound, foldAttempt_failed]
  simp

theorem runRound_slots_get (dir : String) (att : Nat → FetchOutcome)
    (fs : Fs) (slots : List (Option String)) (idxs : List Nat) (j : Nat) :
    (runRound dir att fs slots idxs).2.1[j]? =
      if j ∈ idxs ∧ fetchOk (att j) = true then
        (if j < slots.length then some (some (segPath dir j)) else none)
      else slots[j]? :=
  foldAttempt_slots_get dir att j idxs (fs, slots, [])

theorem runRound_slots_len (dir : String) (att : Nat → FetchOutcome)
    (fs : Fs) (slots : List (Option String)) (idxs : List Nat) :
    ((runRound dir att fs slots idxs).2.1).length = slots.length :=
  foldAttempt_slots_len dir att idxs (fs, slots, [])

/-! ## Retry loop lemmas -/

theorem retryRounds_zero (dir : String) (att : Nat → Nat → FetchOutcome)
    (sched : Nat → List Nat → List Nat) (r : Nat) (fs : Fs)
    (slots : List (Option String)) (failed : List Nat) :
    retryRounds dir att sched 0 r fs slots failed = (fs, slots, failed, []) :=
  rfl

theorem retryRounds_succ_empty (dir : String) (att : Nat → Nat → FetchOutcome)
    (sched : Nat → List Nat → List Nat) (fuel r : Nat) (fs : Fs)
    (slots : List (Option String)) :
    retryRounds dir att sched (fuel + 1) r fs slots [] =
      (fs, slots, [], []) := by
  simp [retryRounds]

theorem retryRounds_succ (dir : String) (att : Nat → Nat → FetchOutcome)
    (sched : Nat → List Nat → List Nat) (fuel r : Nat) (fs : Fs)
    (slots : List (Option String)) (failed : List Nat) (h : failed ≠ []) :
    retryRounds dir att sched (fuel + 1) r fs slots failed =
      ((retryRounds dir att sched fuel (r + 1)
          (runRound dir (att r) fs slots (sched r failed)).1
          (runRound dir (att r) fs slots (sched r failed)).2.1
          (runRound dir (att r) fs slots (sched r failed)).2.2).1,
       (retryRounds dir att sched fuel (r + 1)
          (runRound dir (att r) fs slots (sched r failed)).1
          (runRound dir (att r) fs slots (sched r failed)).2.1
          (runRound dir (att r) fs slots (sched r failed)).2.2).2.1,
       (retryRounds dir att sched fuel (r + 1)
          (runRound dir (att r) fs slots (sched r failed)).1
          (runRound dir (att r) fs slots (sched r failed)).2.1
          (runRound dir (att r) fs slots (sched r failed)).2.2).2.2.1,
       RoundLog.mk r (backoffUnits r) failed (sched r failed) ::
         (retryRounds dir att sched fuel (r + 1)
            (runRound dir (att r) fs slots (sched r failed)).1
            (runRound dir (att r) fs slots (sched r failed)).2.1
            (runRound dir (att r) fs slots (sched r failed)).2.2).2.2.2) := by
  have he : failed.isEmpty = false := by
    cases failed
    · exact absurd rfl h
    · rfl
  simp [retryRounds, he]

theorem retryRounds_log_len (dir : String) (att : Nat → Nat → FetchOutcome)
    (sched : Nat → List Nat → List Nat) :
    ∀ (fuel r : Nat) (fs : Fs) (slots : List (Option String))
      (failed : List Nat),
      ((retryRounds dir att sched fuel r fs slots failed).2.2.2).length
        ≤ fuel := by
  intro fuel
  induction fuel with
  | zero => intro r fs slots failed; simp [retryRounds_zero]
  | succ fuel ih =>
    intro r fs slots failed
    by_cases h : failed = []
    · subst h
      rw [retryRounds_succ_empty]
      simp
    · rw [retryRounds_succ dir att sched fuel r fs slots failed h]
      simp only [List.length_cons]
      exact Nat.succ_le_succ (ih _ _ _ _)

theorem retryRounds_log_spec (dir : String) (att : Nat → Nat → FetchOutcome)
    (sched : Nat → List Nat → List Nat) :
    ∀ (fuel r : Nat) (fs : Fs) (slots : List (Option String))
      (failed : List Nat),
      (∀ k e,
        ((retryRounds dir att sched fuel r fs slots failed).2.2.2)[k]?
          = some e →
        e.round = r + k ∧ e.backoff = e.round ∧ e.failedIn ≠ [] ∧
        e.attempted = sched e.round e.failedIn) ∧
      (∀ e,
        ((retryRounds dir att sched fuel r fs slots failed).2.2.2)[0]?
          = some e →
        e.failedIn = failed) ∧
      (∀ k e e2,
        ((retryRounds dir att sched fuel r fs slots failed).2.2.2)[k]?
          = some e →
        ((retryRounds dir att sched fuel r fs slots failed).2.2.2)[k + 1]?
          = some e2 →
        e2.failedIn = (sched e.round e.failedIn).filter
          (fun i => !fetchOk (att e.round i))) := by
  intro fuel
  induction fuel with
  | zero =>
    intro r fs slots failed
    refine ⟨?_, ?_, ?_⟩ <;> intro k <;> simp [retryRounds_zero]
  | succ fuel ih =>
    intro r fs slots failed
    by_cases h : failed = []
    · subst h
      rw [retryRounds_succ_empty]
      refine ⟨?_, ?_, ?_⟩ <;> intro k <;> simp
    · rw [retryRounds_succ dir att sched fuel r fs slots failed h]
      have hrec := ih (r + 1)
        (runRound dir (att r) fs slots (sched r failed)).1
        (runRound dir (att r) fs slots (sched r failed)).2.1
        (runRound dir (att r) fs slots (sched r failed)).2.2
      refine ⟨?_, ?_, ?_⟩
      · intro k e hk
        cases k with
        | zero =>
          simp only [List.getElem?_cons_zero, Option.some.injEq] at hk
          subst hk
          exact ⟨by simp, rfl, h, rfl⟩
        | succ k =>
          simp only [List.getElem?_cons_succ] at hk
          have h1 := hrec.1 k e hk
          refine ⟨by omega, h1.2.1, h1.2.2.1, h1.2.2.2⟩
      · intro e hk
        simp only [List.getElem?_cons_zero, Option.some.injEq] at hk
        subst hk
        rfl
      · intro k e e2 hk hk2
        cases k with
        | zero =>
          simp only [List.getElem?_cons_zero, Option.some.injEq] at hk
          simp only [List.getElem?_cons_succ] at hk2
          subst hk
          have h2 := hrec.2.1 e2 hk2
          rw [h2]
          simp only [RoundLog.mk.injEq]
          rw [runRound_failed]
        | succ k =>
          simp only [List.getElem?_cons_succ] at hk hk2
          exact hrec.2.2 k e e2 hk hk2

theorem retryRounds_fs_untouched (dir : String)
    (att : Nat → Nat → FetchOutcome) (sched : Nat → List Nat → List Nat)
    (p : String)
    (hp : ∀ i : Nat, p ≠ segPath dir i ∧ p ≠ tmpPath (segPath dir i)) :
    ∀ (fuel r : Nat) (fs : Fs) (slots : List (Option String))
      (failed : List Nat),
      (retryRounds dir att sched fuel r fs slots failed).1 p = fs p := by
  intro fuel
  induction fuel with
  | zero => intro r fs slots failed; rw [retryRounds_zero]
  | succ fuel ih =>
    intro r fs slots failed
    by_cases h : failed = []
    · subst h
      rw [retryRounds_succ_empty]
    · rw [retryRounds_succ dir att sched fuel r fs slots failed h]
      rw [ih]
      exact foldAttempt_fs_untouched dir (att r) p (sched r failed)
        (fs, slots, []) (fun i _ => hp i)

theorem retryRounds_tmp_none (dir : String) (att : Nat → Nat → FetchOutcome)
    (sched : Nat → List Nat → List Nat) (j : Nat) :
    ∀ (fuel r : Nat) (fs : Fs) (slots : List (Option String))
      (failed : List Nat),
      fs (tmpPath (segPath dir j)) = none →
      (retryRounds dir att sched fuel r fs slots failed).1
        (tmpPath (segPath dir j)) = none := by
  intro fuel
  induction fuel with
  | zero => intro r fs slots failed h; rw [retryRounds_zero]; exact h
  | succ fuel ih =>
    intro r fs slots failed h
    by_cases he : failed = []
    · subst he
      rw [retryRounds_succ_empty]
      exact h
    · rw [retryRounds_succ dir att sched fuel r fs slots failed he]
      exact ih _ _ _ _
        (foldAttempt_tmp_none dir (att r) j (sched r failed)
          (fs, slots, []) h)

theorem retryRounds_slots_inv (dir : String) (att : Nat → Nat → FetchOutcome)
    (sched : Nat → List Nat → List Nat) (n : Nat) :
    ∀ (fuel r : Nat) (fs : Fs) (slots : List (Option String))
      (failed : List Nat),
      slots.length = n →
      (∀ j, j < n → slots[j]? = some none ∨
        slots[j]? = some (some (segPath dir j))) →
      ((retryRounds dir att sched fuel r fs slots failed).2.1).length = n ∧
      (∀ j, j < n →
        ((retryRounds dir att sched fuel r fs slots failed).2.1)[j]?
          = some none ∨
        ((retryRounds dir att sched fuel r fs slots failed).2.1)[j]?
          = some (some (segPath dir j))) := by
  intro fuel
  induction fuel with
  | zero =>
    intro r fs slots failed hlen hshape
    rw [retryRounds_zero]
    exact ⟨hlen, hshape⟩
  | succ fuel ih =>
    intro r fs slots failed hlen hshape
    by_cases he : failed = []
    · subst he
      rw [retryRounds_succ_empty]
      exact ⟨hlen, hshape⟩
    · rw [retryRounds_succ dir att sched fuel r fs slots failed he]
      apply ih
      · rw [runRound_slots_len]
        exact hlen
      · intro j hj
        rw [runRound_slots_get]
        split
        · rw [if_pos (by omega)]
          right
          rfl
        · exact hshape j hj

theorem retryRounds_avoid (dir : String) (att : Nat → Nat → FetchOutcome)
    (sched : Nat → List Nat → List Nat)
    (hsched : ∀ r l, List.Perm (sched r l) l) (i : Nat) :
    ∀ (fuel r : Nat) (fs : Fs) (slots : List (Option String))
      (failed : List Nat),
      i ∉ failed →
      ((retryRounds dir att sched fuel r fs slots failed).2.1)[i]?
        = slots[i]? ∧
      i ∉ (retryRounds dir att sched fuel r fs slots failed).2.2.1 ∧
      (∀ (k : Nat) (e : RoundLog),
        ((retryRounds dir att sched fuel r fs slots failed).2.2.2)[k]?
          = some e → i ∉ e.attempted) := by
  intro fuel
  induction fuel with
  | zero =>
    intro r fs slots failed hni
    rw [retryRounds_zero]
    exact ⟨rfl, hni, by intro k e hk; simp at hk⟩
  | succ fuel ih =>
    intro r fs slots failed hni
    by_cases he : failed = []
    · subst he
      rw [retryRounds_succ_empty]
      exact ⟨rfl, by simp, by intro k e hk; simp at hk⟩
    · rw [retryRounds_succ dir att sched fuel r fs slots failed he]
      have hnis : i ∉ sched r failed := fun hmem =>
        hni ((hsched r failed).mem_iff.mp hmem)
      have hnf : i ∉ (runRound dir (att r) fs slots (sched r failed)).2.2 := by
        rw [runRound_failed]
        intro hmem
        exact hnis (List.mem_of_mem_filter hmem)
      have hrec := ih (r + 1)
        (runRound dir (att r) fs slots (sched r failed)).1
        (runRound dir (att r) fs slots (sched r failed)).2.1
        (runRound dir (att r) fs slots (sched r failed)).2.2 hnf
      refine ⟨?_, hrec.2.1, ?_⟩
      · rw [hrec.1, runRound_slots_get]
        rw [if_neg (fun hc => hnis hc.1)]
      · intro k e hk
        cases k with
        | zero =>
          simp only [List.getElem?_cons_zero, Option.some.injEq] at hk
          subst hk
          exact hnis
        | succ k =>
          simp only [List.getElem?_cons_succ] at hk
          exact hrec.2.2 k e hk

theorem retryRounds_budget (dir : String) (att : Nat → Nat → FetchOutcome)
    (sched : Nat → List Nat → List Nat) :
    ∀ (fuel r : Nat) (fs : Fs) (slots : List (Option String))
      (failed : List Nat),
      ((retryRounds dir att sched fuel r fs slots failed).2.2.2).length
        < fuel →
      (retryRounds dir att sched fuel r fs slots failed).2.2.1 = [] := by
  intro fuel
  induction fuel with
  | zero => intro r fs slots failed h; simp at h
  | succ fuel ih =>
    intro r fs slots failed h
    by_cases he : failed = []
    · subst he
      rw [retryRounds_succ_empty]
    · rw [retryRounds_succ dir att sched fuel r fs slots failed he] at h ⊢
      simp only [List.length_cons] at h
      exact ih _ _ _ _ (by omega)

theorem retryRounds_success (dir : String) (att : Nat → Nat → FetchOutcome)
    (sched : Nat → List Nat → List Nat)
    (hsched : ∀ r l, List.Perm (sched r l) l) :
    ∀ (fuel r : Nat) (fs : Fs) (slots : List (Option String))
      (failed : List Nat) (k : Nat) (e : RoundLog) (i : Nat),
      (∀ x ∈ failed, x < slots.length) →
      ((retryRounds dir att sched fuel r fs slots failed).2.2.2)[k]?
        = some e →
      i ∈ e.attempted →
      fetchOk (att e.round i) = true →
      ((retryRounds dir att sched fuel r fs slots failed).2.1)[i]?
        = some (some (segPath dir i)) ∧
      (∀ (k2 : Nat) (e2 : RoundLog), k < k2 →
        ((retryRounds dir att sched fuel r fs slots failed).2.2.2)[k2]?
          = some e2 → i ∉ e2.attempted) := by
  intro fuel
  induction fuel with
  | zero =>
    intro r fs slots failed k e i _ hk
    simp [retryRounds_zero] at hk
  | succ fuel ih =>
    intro r fs slots failed k e i hbound hk hmem hok
    by_cases he : failed = []
    · subst he
      rw [retryRounds_succ_empty] at hk
      simp at hk
    · rw [retryRounds_succ dir att sched fuel r fs slots failed he] at hk ⊢
      have hlen1 : ∀ x ∈ (runRound dir (att r) fs slots (sched r failed)).2.2,
          x < ((runRound dir (att r) fs slots (sched r failed)).2.1).length := by
        intro x hx
        rw [runRound_slots_len]
        rw [runRound_failed] at hx
        exact hbound x ((hsched r failed).mem_iff.mp
          (List.mem_of_mem_filter hx))
      cases k with
      | zero =>
        simp only [List.getElem?_cons_zero, Option.some.injEq] at hk
        subst hk
        simp only at hmem hok
        have hif : i ∈ failed := (hsched r failed).mem_iff.mp hmem
        have hilt : i < slots.length := hbound i hif
        have hslot1 :
            ((runRound dir (att r) fs slots (sched r failed)).2.1)[i]?
              = some (some (segPath dir i)) := by
          rw [runRound_slots_get, if_pos ⟨hmem, hok⟩, if_pos hilt]
        have hnf : i ∉ (runRound dir (att r) fs slots (sched r failed)).2.2 := by
          rw [runRound_failed]
          intro hc
          have := List.of_mem_filter hc
          rw [hok] at this
          simp at this
        have havoid := retryRounds_avoid dir att sched hsched i fuel (r + 1)
          (runRound dir (att r) fs slots (sched r failed)).1
          (runRound dir (att r) fs slots (sched r failed)).2.1
          (runRound dir (att r) fs slots (sched r failed)).2.2 hnf
        refine ⟨by rw [havoid.1]; exact hslot1, ?_⟩
        intro k2 e2 hk2 hk2e
        cases k2 with
        | zero => omega
        | succ k2 =>
          simp only [List.getElem?_cons_succ] at hk2e
          exact havoid.2.2 k2 e2 hk2e
      | succ k =>
        simp only [List.getElem?_cons_succ] at hk
        have hrec := ih (r + 1)
          (runRound dir (att r) fs slots (sched r failed)).1
          (runRound dir (att r) fs slots (sched r failed)).2.1
          (runRound dir (att r) fs slots (sched r failed)).2.2
          k e i hlen1 hk hmem hok
        refine ⟨hrec.1, ?_⟩
        intro k2 e2 hk2 hk2e
        cases k2 with
        | zero => omega
        | succ k2 =>
          simp only [List.getElem?_cons_succ] at hk2e
          exact hrec.2 k2 e2 (by omega) hk2e

/-! ## Download phase lemmas -/

theorem downloadPhase_eq (dir : String) (maxRetry : Nat)
    (att : Nat → Nat → FetchOutcome) (sched : Nat → List Nat → List Nat)
    (n : Nat) (fs : Fs) :
    downloadPhase dir maxRetry att sched n fs =
      retryRounds dir att sched maxRetry 1
        (runRound dir (att 0) fs (List.replicate n none)
          (sched 0 (List.range n))).1
        (runRound dir (att 0) fs (List.replicate n none)
          (sched 0 (List.range n))).2.1
        (runRound dir (att 0) fs (List.replicate n none)
          (sched 0 (List.range n))).2.2 := rfl

theorem downloadPhase_slots_inv (dir : String) (maxRetry : Nat)
    (att : Nat → Nat → FetchOutcome) (sched : Nat → List Nat → List Nat)
    (n : Nat) (fs : Fs) :
    ((downloadPhase dir maxRetry att sched n fs).2.1).length = n ∧
    (∀ j, j < n →
      ((downloadPhase dir maxRetry att sched n fs).2.1)[j]? = some none ∨
      ((downloadPhase dir maxRetry att sched n fs).2.1)[j]?
        = some (some (segPath dir j))) := by
  rw [downloadPhase_eq]
  apply retryRounds_slots_inv
  · rw [runRound_slots_len, List.length_replicate]
  · intro j hj
    rw [runRound_slots_get]
    split
    · rw [if_pos (by simpa using hj)]
      right
      rfl
    · left
      simp [List.getElem?_replicate, hj]

theorem downloadPhase_fs_untouched (dir : String) (maxRetry : Nat)
    (att : Nat → Nat → FetchOutcome) (sched : Nat → List Nat → List Nat)
    (n : Nat) (fs : Fs) (p : String)
    (hp : ∀ i : Nat, p ≠ segPath dir i ∧ p ≠ tmpPath (segPath dir i)) :
    (downloadPhase dir maxRetry att sched n fs).1 p = fs p := by
  rw [downloadPhase_eq, retryRounds_fs_untouched dir att sched p hp]
  exact foldAttempt_fs_untouched dir (att 0) p _ _ (fun i _ => hp i)

theorem downloadPhase_tmp_none (dir : String) (maxRetry : Nat)
    (att : Nat → Nat → FetchOutcome) (sched : Nat → List Nat → List Nat)
    (n : Nat) (fs : Fs) (j : Nat)
    (h : fs (tmpPath (segPath dir j)) = none) :
    (downloadPhase dir maxRetry att sched n fs).1 (tmpPath (segPath dir j))
      = none := by
  rw [downloadPhase_eq]
  apply retryRounds_tmp_none
  exact foldAttempt_tmp_none dir (att 0) j _ _ h

/-! ## Independence of the bookkeeping from the storage state -/

theorem attemptOne_snd_indep (dir : String) (att : Nat → FetchOutcome)
    (st st2 : Fs × List (Option String) × List Nat) (i : Nat)
    (h : st.2 = st2.2) :
    (attemptOne dir att st i).2 = (attemptOne dir att st2 i).2 := by
  have c1 := attemptOne_char dir att st i
  have c2 := attemptOne_char dir att st2 i
  have h1 : st.2.1 = st2.2.1 := by rw [h]
  have h2 : st.2.2 = st2.2.2 := by rw [h]
  refine Prod.ext ?_ ?_
  · rw [c1.1, c2.1, h1]
  · rw [c1.2.1, c2.2.1, h2]

theorem foldAttempt_snd_indep (dir : String) (att : Nat → FetchOutcome) :
    ∀ (idxs : List Nat) (st st2 : Fs × List (Option String) × List Nat),
      st.2 = st2.2 →
      (idxs.foldl (attemptOne dir att) st).2 =
      (idxs.foldl (attemptOne dir att) st2).2 := by
  intro idxs
  induction idxs with
  | nil => intro st st2 h; exact h
  | cons i rest ih =>
    intro st st2 h
    rw [List.foldl_cons, List.foldl_cons]
    exact ih _ _ (attemptOne_snd_indep dir att st st2 i h)

theorem runRound_snd_indep (dir : String) (a : Nat → FetchOutcome)
    (slots : List (Option String)) (idxs : List Nat) (fs fs2 : Fs) :
    (runRound dir a fs slots idxs).2 = (runRound dir a fs2 slots idxs).2 :=
  foldAttempt_snd_indep dir a idxs _ _ rfl

theorem retryRounds_snd_indep (dir : String) (att : Nat → Nat → FetchOutcome)
    (sched : Nat → List Nat → List Nat) :
    ∀ (fuel r : Nat) (slots : List (Option String)) (failed : List Nat)
      (fs fs2 : Fs),
      (retryRounds dir att sched fuel r fs slots failed).2 =
      (retryRounds dir att sched fuel r fs2 slots failed).2 := by
  intro fuel
  induction fuel with
  | zero => intro r slots failed fs fs2; rfl
  | succ fuel ih =>
    intro r slots failed fs fs2
    by_cases he : failed = []
    · subst he
      rw [retryRounds_succ_empty, retryRounds_succ_empty]
    · rw [retryRounds_succ dir att sched fuel r fs slots failed he,
        retryRounds_succ dir att sched fuel r fs2 slots failed he]
      have hr := runRound_snd_indep dir (att r) slots (sched r failed) fs fs2
      have h1 : (runRound dir (att r) fs slots (sched r failed)).2.1 =
          (runRound dir (att r) fs2 slots (sched r failed)).2.1 := by rw [hr]
      have h2 : (runRound dir (att r) fs slots (sched r failed)).2.2 =
          (runRound dir (att r) fs2 slots (sched r failed)).2.2 := by rw [hr]
      rw [h1, h2]
      have hih := ih (r + 1)
        (runRound dir (att r) fs2 slots (sched r failed)).2.1
        (runRound dir (att r) fs2 slots (sched r failed)).2.2
        (runRound dir (att r) fs slots (sched r failed)).1
        (runRound dir (att r) fs2 slots (sched r failed)).1
      simp only [Prod.mk.injEq]
      exact ⟨by rw [hih], by rw [hih], by rw [hih]⟩

theorem downloadPhase_snd_indep (dir : String) (maxRetry : Nat)
    (att : Nat → Nat → FetchOutcome) (sched : Nat → List Nat → List Nat)
    (n : Nat) (fs fs2 : Fs) :
    (downloadPhase dir maxRetry att sched n fs).2 =
    (downloadPhase dir maxRetry att sched n fs2).2 := by
  rw [downloadPhase_eq, downloadPhase_eq]
  have hr := runRound_snd_indep dir (att 0) (List.replicate n none)
    (sched 0 (List.range n)) fs fs2
  have h1 : (runRound dir (att 0) fs (List.replicate n none)
      (sched 0 (List.range n))).2.1 =
      (runRound dir (att 0) fs2 (List.replicate n none)
      (sched 0 (List.range n))).2.1 := by rw [hr]
  have h2 : (runRound dir (att 0) fs (List.replicate n none)
      (sched 0 (List.range n))).2.2 =
      (runRound dir (att 0) fs2 (List.replicate n none)
      (sched 0 (List.range n))).2.2 := by rw [hr]
  rw [h1, h2]
  exact retryRounds_snd_indep dir att sched maxRetry 1 _ _ _ _

/-! ## Verification lemmas -/

theorem verifyOne_ok (fs : Fs) (validate : Bool) (i : Nat)
    (sl : Option String) (f : String)
    (h : verifyOne fs validate i sl = Except.ok f) :
    sl = some f ∧ (fs f).isSome = true := by
  cases sl with
  | none => exact absurd h (by simp [verifyOne])
  | some file =>
    cases hd : fs file with
    | none =>
      simp only [verifyOne, hd] at h
      exact absurd h (by simp)
    | some data =>
      simp only [verifyOne, hd] at h
      by_cases hlen : data.length = 0
      · rw [if_pos hlen] at h
        exact absurd h (by simp)
      · rw [if_neg hlen] at h
        by_cases hv : validate = true
        · rw [if_pos hv] at h
          cases hvt : validateTS data with
          | error e =>
            simp only [hvt] at h
            exact absurd h (by simp)
          | ok u =>
            simp only [hvt] at h
            injection h with h2
            subst h2
            exact ⟨rfl, by rw [hd]; rfl⟩
        · rw [if_neg hv] at h
          injection h with h2
          subst h2
          exact ⟨rfl, by rw [hd]; rfl⟩

theorem verifySegments_ok_slots (fs : Fs) (validate : Bool) :
    ∀ (slots : List (Option String)) (k : Nat) (files : List String),
      verifySegments fs validate k slots = Except.ok files →
      slots = files.map some ∧ ∀ f ∈ files, (fs f).isSome = true := by
  intro slots
  induction slots with
  | nil =>
    intro k files h
    simp only [verifySegments] at h
    injection h with h2
    subst h2
    simp
  | cons sl rest ih =>
    intro k files h
    simp only [verifySegments] at h
    cases hv : verifyOne fs validate k sl with
    | error e =>
      rw [hv] at h
      exact absurd h (by simp)
    | ok f =>
      rw [hv] at h
      cases hr : verifySegments fs validate (k + 1) rest with
      | error e =>
        rw [hr] at h
        exact absurd h (by simp)
      | ok filesR =>
        rw [hr] at h
        injection h with h2
        subst h2
        have hone := verifyOne_ok fs validate k sl f hv
        have hrest := ih (k + 1) filesR hr
        refine ⟨?_, ?_⟩
        · rw [List.map_cons, hone.1, hrest.1]
        · intro g hg
          rcases List.mem_cons.mp hg with hg | hg
          · subst hg
            exact hone.2
          · exact hrest.2 g hg

theorem verifySegments_first_error (fs : Fs) (validate : Bool) :
    ∀ (slots : List (Option String)) (k m : Nat) (sl : Option String)
      (e : String),
      slots[m]? = some sl →
      verifyOne fs validate (k + m) sl = Except.error e →
      (∀ (j : Nat) (sl2 : Option String), j < m → slots[j]? = some sl2 →
        ∃ f, verifyOne fs validate (k + j) sl2 = Except.ok f) →
      verifySegments fs validate k slots = Except.error e := by
  intro slots
  induction slots with
  | nil =>
    intro k m sl e hm
    simp at hm
  | cons s rest ih =>
    intro k m sl e hm he hok
    cases m with
    | zero =>
      simp only [List.getElem?_cons_zero, Option.some.injEq] at hm
      subst hm
      rw [Nat.add_zero] at he
      simp only [verifySegments]
      rw [he]
    | succ m =>
      simp only [List.getElem?_cons_succ] at hm
      obtain ⟨f0, hf0⟩ := hok 0 s (by omega)
        (by simp)
      rw [Nat.add_zero] at hf0
      simp only [verifySegments]
      rw [hf0]
      have herec : verifySegments fs validate (k + 1) rest
          = Except.error e := by
        apply ih (k + 1) m sl e hm
        · rw [show k + 1 + m = k + (m + 1) by omega]
          exact he
        · intro j sl2 hj hsl2
          have := hok (j + 1) sl2 (by omega) (by simpa using hsl2)
          rw [show k + (j + 1) = k + 1 + j by omega] at this
          exact this
      rw [herec]

/-! ## Merger lemmas -/

theorem fsSet_collapse (fs : Fs) (p : String) (v w : List Nat) :
    fsSet (fsSet fs p v) p w = fsSet fs p w := by
  funext q
  by_cases hq : q = p <;> simp [fsSet, hq]

theorem fsSet_redundant (fs : Fs) (p : String) (v : List Nat)
    (h : fs p = some v) : fsSet fs p v = fs := by
  funext q
  by_cases hq : q = p <;> simp [fsSet, hq, h.symm]

theorem mergeLoop_ok (tmpOut : String) :
    ∀ (files : List String) (fs : Fs),
      (∀ f ∈ files, f ≠ tmpOut ∧ (fs f).isSome = true) →
      (fs tmpOut).isSome = true →
      mergeLoop fs tmpOut files =
        (fsSet fs tmpOut (((fs tmpOut).getD []) ++
          (files.map (fun f => (fs f).getD [])).flatten), none) := by
  intro files
  induction files with
  | nil =>
    intro fs h htv
    cases htv2 : fs tmpOut with
    | none => rw [htv2] at htv; simp at htv
    | some v =>
      simp only [mergeLoop, List.map_nil, List.flatten_nil, List.append_nil,
        Option.getD_some]
      rw [fsSet_redundant fs tmpOut v htv2]
  | cons f rest ih =>
    intro fs h htv
    have hf := h f (List.mem_cons_self _ _)
    cases hd : fs f with
    | none => rw [hd] at hf; simp at hf
    | some data =>
      simp only [mergeLoop, hd]
      have hrec := ih (fsSet fs tmpOut (((fs tmpOut).getD []) ++ data))
        (by
          intro g hg
          have hgr := h g (List.mem_cons_of_mem _ hg)
          refine ⟨hgr.1, ?_⟩
          rw [fsSet_other fs tmpOut g _ hgr.1]
          exact hgr.2)
        (by rw [fsSet_self]; rfl)
      rw [hrec]
      rw [fsSet_collapse, fsSet_self]
      have hmap : rest.map
          (fun g => ((fsSet fs tmpOut (((fs tmpOut).getD []) ++ data)) g).getD [])
          = rest.map (fun g => (fs g).getD []) := by
        apply List.map_congr_left
        intro g hg
        rw [fsSet_other fs tmpOut g _ (h g (List.mem_cons_of_mem _ hg)).1]
      rw [hmap]
      simp only [Option.getD_some, List.map_cons, List.flatten_cons, hd,
        List.append_assoc]

theorem mergeSegments_ok (fs : Fs) (output : String) (files : List String)
    (h : ∀ f ∈ files, f ≠ tmpPath output ∧ (fs f).isSome = true) :
    (mergeSegments fs output files).2 = Except.ok () ∧
    (mergeSegments fs output files).1 output =
      some ((files.map (fun f => (fs f).getD [])).flatten) ∧
    (mergeSegments fs output files).1 (tmpPath output) = none ∧
    (∀ p, p ≠ output → p ≠ tmpPath output →
      (mergeSegments fs output files).1 p = fs p) := by
  have hloop := mergeLoop_ok (tmpPath output) files
    (fsSet fs (tmpPath output) [])
    (by
      intro f hf
      refine ⟨(h f hf).1, ?_⟩
      rw [fsSet_other fs (tmpPath output) f _ (h f hf).1]
      exact (h f hf).2)
    (by rw [fsSet_self]; rfl)
  have hmap : files.map
      (fun f => ((fsSet fs (tmpPath output) []) f).getD [])
      = files.map (fun f => (fs f).getD []) := by
    apply List.map_congr_left
    intro f hf
    rw [fsSet_other fs (tmpPath output) f _ (h f hf).1]
  rw [fsSet_self] at hloop
  rw [hmap, fsSet_collapse] at hloop
  simp only [Option.getD_some, List.nil_append] at hloop
  have hne : tmpPath output ≠ output := tmpPath_ne_self output
  refine ⟨?_, ?_, ?_, ?_⟩
  · simp only [mergeSegments, hloop]
  · simp only [mergeSegments, hloop, fsSet_self, Option.getD_some]
  · simp only [mergeSegments, hloop, fsSet_self, Option.getD_some]
    rw [fsSet_other _ _ _ _ hne, fsRemove_self]
  · intro p hpo hpt
    simp only [mergeSegments, hloop, fsSet_self, Option.getD_some]
    split
    · rw [fsSet_other _ _ _ _ hpo, fsRemove_other _ _ _ hpt,
        fsRemove_other _ _ _ hpo, fsSet_other _ _ _ _ hpt]
    · rw [fsSet_other _ _ _ _ hpo, fsRemove_other _ _ _ hpt,
        fsSet_other _ _ _ _ hpt]

/-! ## Ordered merge (C1) -/

/-- C1: whenever downloadSegments succeeds, the verified file list is the
segment paths in ascending ordinal order — for every completion-order
schedule and every fetch-outcome oracle, so the merge order is independent
of the order in which segment downloads completed — and the Merger then
succeeds and produces an output file whose bytes are exactly the
byte-for-byte concatenation of those files' bytes in that ascending order. -/
theorem merger_ordered_concat (dir output : String) (maxRetry : Nat)
    (validate : Bool) (att : Nat → Nat → FetchOutcome)
    (sched : Nat → List Nat → List Nat) (n : Nat) (fs : Fs)
    (files : List String)
    (hdl : (downloadSegments dir maxRetry validate att sched n fs).2
      = Except.ok files)
    (htmp : tmpPath output ∉ files) :
    files = (List.range n).map (segPath dir) ∧
    (mergeSegments (downloadSegments dir maxRetry validate att sched n fs).1
      output files).2 = Except.ok () ∧
    (mergeSegments (downloadSegments dir maxRetry validate att sched n fs).1
      output files).1 output =
      some ((files.map (fun f =>
        ((downloadSegments dir maxRetry validate att sched n fs).1 f).getD
          [])).flatten) := by
  have hds2 : (downloadSegments dir maxRetry validate att sched n fs).2 =
      verifySegments (downloadPhase dir maxRetry att sched n fs).1 validate 0
        (downloadPhase dir maxRetry att sched n fs).2.1 := rfl
  rw [hds2] at hdl
  obtain ⟨hslots, hfiles⟩ := verifySegments_ok_slots
    (downloadPhase dir maxRetry att sched n fs).1 validate
    (downloadPhase dir maxRetry att sched n fs).2.1 0 files hdl
  obtain ⟨hlen, hshape⟩ := downloadPhase_slots_inv dir maxRetry att sched n fs
  have hfl : files.length = n := by
    have hc := congrArg List.length hslots
    simp only [List.length_map] at hc
    omega
  have hfe : files = (List.range n).map (segPath dir) := by
    apply List.ext_getElem?
    intro j
    by_cases hj : j < n
    · have hs := hshape j hj
      rw [hslots, List.getElem?_map] at hs
      cases hfj : files[j]? with
      | none =>
        rw [hfj] at hs
        rcases hs with hs | hs <;> simp at hs
      | some x =>
        rw [hfj] at hs
        rcases hs with hs | hs
        · simp at hs
        · simp at hs
          rw [List.getElem?_map, List.getElem?_range hj]
          simp [hs]
    · rw [List.getElem?_eq_none (by omega), List.getElem?_eq_none]
      simp only [List.length_map, List.length_range]
      omega
  have hmerge := mergeSegments_ok
    (downloadPhase dir maxRetry att sched n fs).1 output files
    (fun f hf => ⟨fun hc => htmp (hc ▸ hf), hfiles f hf⟩)
  exact ⟨hfe, hmerge.1, hmerge.2.1⟩

set_option maxRecDepth 400000 in
/-- Witness for C1 at a concrete input. -/
theorem merger_ordered_concat_witness :
    (downloadSegments "d" 1 false (fun _ _ => FetchOutcome.success [71, 0])
      (fun _ l => l) 1 (fun _ => none)).2
      = Except.ok ["d/segment_00000.ts"] ∧
    tmpPath "out.mp4" ∉ ["d/segment_00000.ts"] ∧
    ["d/segment_00000.ts"] = (List.range 1).map (segPath "d") :=
  ⟨by decide, by decide,
    (merger_ordered_concat "d" "out.mp4" 1 false
      (fun _ _ => FetchOutcome.success [71, 0]) (fun _ l => l) 1
      (fun _ => none) ["d/segment_00000.ts"] (by decide) (by decide)).1⟩

/-! ## Fail-fast on missing segments (C2) -/

theorem output_untouched (dir : String) (maxRetry : Nat)
    (att : Nat → Nat → FetchOutcome) (sched : Nat → List Nat → List Nat)
    (n : Nat) (fs : Fs) (output : String)
    (houts : lastChar output ≠ some 's')
    (houtp : lastChar output ≠ some 'p') :
    (downloadPhase dir maxRetry att sched n fs).1 output = fs output ∧
    (downloadPhase dir maxRetry att sched n fs).1 (tmpPath output)
      = fs (tmpPath output) := by
  constructor
  · apply downloadPhase_fs_untouched
    intro i
    constructor
    · exact ne_of_lastChar (by rw [lastChar_segPath]; exact houts)
    · exact ne_of_lastChar (by rw [lastChar_tmp]; exact houtp)
  · apply downloadPhase_fs_untouched
    intro i
    constructor
    · apply ne_of_lastChar
      rw [lastChar_tmp, lastChar_segPath]
      decide
    · intro hc
      exact houts (by rw [tmpPath_inj hc, lastChar_segPath])

set_option maxRecDepth 400000 in
/-- C2 counterexample: a run in which result slot 1 is still empty after
the retry rounds, yet the pipeline's error does not name the first missing
ordinal (segment 2) — it reports the earlier verification problem that
segment 1 was downloaded as a zero-byte file.  The abort itself still
happens; only the "error names the first missing ordinal" part fails. -/
theorem missing_error_counterexample :
    ((downloadPhase "d" 1
        (fun _ i => if i = 0 then FetchOutcome.success []
          else FetchOutcome.httpError 500)
        (fun _ l => l) 2 (fun _ => none)).2.1)[1]? = some none ∧
    (downloadPipeline "d" "out.mp4" 1 false
        (fun _ i => if i = 0 then FetchOutcome.success []
          else FetchOutcome.httpError 500)
        (fun _ l => l) 2 (fun _ => none)).2 =
      Except.error
        "error downloading segments: segment file 1 is empty (0 bytes)" ∧
    (Except.error
        "error downloading segments: segment file 1 is empty (0 bytes)"
      : Except String Unit) ≠
      Except.error
        "error downloading segments: segment 2 failed to download after all retries" := by
  refine ⟨by decide, by decide, by decide⟩

/-- C2 (amended): after the initial pass plus up to maxRetry retry rounds,
if some result slot m is still empty, then — provided every filled slot
with a lower ordinal passes its post-retry verification — the pipeline
aborts with an error naming the first missing ordinal, and neither the
output path nor its temporary path is created or modified (no partial
output is produced). -/
theorem missing_segment_aborts (dir output : String) (maxRetry : Nat)
    (validate : Bool) (att : Nat → Nat → FetchOutcome)
    (sched : Nat → List Nat → List Nat) (n : Nat) (fs : Fs) (m : Nat)
    (houts : lastChar output ≠ some 's')
    (houtp : lastChar output ≠ some 'p')
    (hm : ((downloadPhase dir maxRetry att sched n fs).2.1)[m]?
      = some none)
    (hok : ∀ (j : Nat) (sl : Option String), j < m →
      ((downloadPhase dir maxRetry att sched n fs).2.1)[j]? = some sl →
      ∃ f, verifyOne (downloadPhase dir maxRetry att sched n fs).1 validate
        j sl = Except.ok f) :
    (downloadPipeline dir output maxRetry validate att sched n fs).2 =
      Except.error ("error downloading segments: segment " ++
        toString (m + 1) ++ " failed to download after all retries") ∧
    (downloadPipeline dir output maxRetry validate att sched n fs).1 output
      = fs output ∧
    (downloadPipeline dir output maxRetry validate att sched n fs).1
      (tmpPath output) = fs (tmpPath output) := by
  have hverr : verifySegments (downloadPhase dir maxRetry att sched n fs).1
      validate 0 (downloadPhase dir maxRetry att sched n fs).2.1 =
      Except.error ("segment " ++ toString (m + 1) ++
        " failed to download after all retries") := by
    apply verifySegments_first_error
      (downloadPhase dir maxRetry att sched n fs).1 validate
      (downloadPhase dir maxRetry att sched n fs).2.1 0 m none _ hm
    · simp [verifyOne]
    · intro j sl2 hj hsl2
      exact (by simpa using hok j sl2 hj hsl2)
  have hpipe : downloadPipeline dir output maxRetry validate att sched n fs =
      ((downloadPhase dir maxRetry att sched n fs).1,
       Except.error ("error downloading segments: " ++
         ("segment " ++ toString (m + 1) ++
          " failed to download after all retries"))) := by
    simp only [downloadPipeline, downloadSegments, hverr]
  rw [hpipe]
  have hout := output_untouched dir maxRetry att sched n fs output houts houtp
  exact ⟨rfl, hout.1, hout.2⟩

set_option maxRecDepth 400000 in
/-- Witness for the amended C2 at a concrete input. -/
theorem missing_segment_aborts_witness :
    ((downloadPhase "d" 1 (fun _ _ => FetchOutcome.httpError 404)
      (fun _ l => l) 1 (fun _ => none)).2.1)[0]? = some none ∧
    (downloadPipeline "d" "out.mp4" 1 false
      (fun _ _ => FetchOutcome.httpError 404) (fun _ l => l) 1
      (fun _ => none)).2 =
      Except.error
        "error downloading segments: segment 1 failed to download after all retries" :=
  ⟨by decide,
    (missing_segment_aborts "d" "out.mp4" 1 false
      (fun _ _ => FetchOutcome.httpError 404) (fun _ l => l) 1
      (fun _ => none) 0 (by decide) (by decide) (by decide)
      (fun j sl hj _ => absurd hj (by omega))).1⟩

/-! ## Post-retry verification failures (C6) -/

/-- C6: after the retry phase, a filled result slot whose lower-ordinal
slots verify is checked on storage: a zero-byte file aborts the run with
the empty-segment error even though its fetch succeeded; when validation is
enabled, an Integrity Validator failure aborts the run with the
integrity-check error.  In both cases the output path is left untouched,
exactly as for a download failure, and the failure is never retried: the
download phase's bookkeeping (result slots, failure sets and round log) is
the same for every storage state, so verification outcomes cannot feed
back into the retry rounds. -/
theorem verify_phase_aborts (dir output : String) (maxRetry : Nat)
    (validate : Bool) (att : Nat → Nat → FetchOutcome)
    (sched : Nat → List Nat → List Nat) (n : Nat) (fs : Fs) (m : Nat)
    (file : String)
    (houts : lastChar output ≠ some 's')
    (houtp : lastChar output ≠ some 'p')
    (hm : ((downloadPhase dir maxRetry att sched n fs).2.1)[m]?
      = some (some file))
    (hok : ∀ (j : Nat) (sl : Option String), j < m →
      ((downloadPhase dir maxRetry att sched n fs).2.1)[j]? = some sl →
      ∃ f, verifyOne (downloadPhase dir maxRetry att sched n fs).1 validate
        j sl = Except.ok f) :
    ((downloadPhase dir maxRetry att sched n fs).1 file = some [] →
      (downloadPipeline dir output maxRetry validate att sched n fs).2 =
        Except.error ("error downloading segments: segment file " ++
          toString (m + 1) ++ " is empty (0 bytes)") ∧
      (downloadPipeline dir output maxRetry validate att sched n fs).1
        output = fs output) ∧
    (∀ (d : List Nat) (e : String), validate = true →
      (downloadPhase dir maxRetry att sched n fs).1 file = some d →
      d ≠ [] → validateTS d = Except.error e →
      (downloadPipeline dir output maxRetry validate att sched n fs).2 =
        Except.error ("error downloading segments: segment file " ++
          toString (m + 1) ++ " failed integrity check: " ++ e) ∧
      (downloadPipeline dir output maxRetry validate att sched n fs).1
        output = fs output) ∧
    (∀ fs2 : Fs, (downloadPhase dir maxRetry att sched n fs).2 =
      (downloadPhase dir maxRetry att sched n fs2).2) := by
  have hout := output_untouched dir maxRetry att sched n fs output houts houtp
  refine ⟨?_, ?_, fun fs2 => downloadPhase_snd_indep dir maxRetry att sched
    n fs fs2⟩
  · intro hempty
    have hone : verifyOne (downloadPhase dir maxRetry att sched n fs).1
        validate (0 + m) (some file) =
        Except.error ("segment file " ++ toString (m + 1) ++
          " is empty (0 bytes)") := by
      simp [verifyOne, hempty]
    have hverr := verifySegments_first_error
      (downloadPhase dir maxRetry att sched n fs).1 validate
      (downloadPhase dir maxRetry att sched n fs).2.1 0 m (some file) _ hm
      hone
      (fun j sl2 hj hsl2 => by simpa using hok j sl2 hj hsl2)
    have hpipe : downloadPipeline dir output maxRetry validate att sched n
        fs = ((downloadPhase dir maxRetry att sched n fs).1,
        Except.error ("error downloading segments: " ++
          ("segment file " ++ toString (m + 1) ++ " is empty (0 bytes)"))) := by
      simp only [downloadPipeline, downloadSegments, hverr]
    rw [hpipe]
    exact ⟨rfl, hout.1⟩
  · intro d e hv hd hdne hvt
    have hone : verifyOne (downloadPhase dir maxRetry att sched n fs).1
        validate (0 + m) (some file) =
        Except.error ("segment file " ++ toString (m + 1) ++
          " failed integrity check: " ++ e) := by
      have hlen : ¬ d.length = 0 := by
        intro hc
        exact hdne (List.eq_nil_of_length_eq_zero hc)
      simp [verifyOne, hd, hlen, hv, hvt]
    have hverr := verifySegments_first_error
      (downloadPhase dir maxRetry att sched n fs).1 validate
      (downloadPhase dir maxRetry att sched n fs).2.1 0 m (some file) _ hm
      hone
      (fun j sl2 hj hsl2 => by simpa using hok j sl2 hj hsl2)
    have hpipe : downloadPipeline dir output maxRetry validate att sched n
        fs = ((downloadPhase dir maxRetry att sched n fs).1,
        Except.error ("error downloading segments: " ++
          ("segment file " ++ toString (m + 1) ++
           " failed integrity check: " ++ e))) := by
      simp only [downloadPipeline, downloadSegments, hverr]
    rw [hpipe]
    exact ⟨rfl, hout.1⟩

set_option maxRecDepth 400000 in
/-- Witness for C6 at a concrete input: a fetch that succeeds with an empty
body fills its slot, and the run then aborts on the zero-byte check. -/
theorem verify_phase_aborts_witness :
    ((downloadPhase "d" 1 (fun _ _ => FetchOutcome.success [])
      (fun _ l => l) 1 (fun _ => none)).2.1)[0]?
      = some (some (segPath "d" 0)) ∧
    (downloadPhase "d" 1 (fun _ _ => FetchOutcome.success [])
      (fun _ l => l) 1 (fun _ => none)).1 (segPath "d" 0) = some [] ∧
    (downloadPipeline "d" "out.mp4" 1 false
      (fun _ _ => FetchOutcome.success []) (fun _ l => l) 1
      (fun _ => none)).2 =
      Except.error
        "error downloading segments: segment file 1 is empty (0 bytes)" :=
  ⟨by decide, by decide,
    ((verify_phase_aborts "d" "out.mp4" 1 false
      (fun _ _ => FetchOutcome.success []) (fun _ l => l) 1 (fun _ => none)
      0 (segPath "d" 0) (by decide) (by decide) (by decide)
      (fun j sl hj _ => absurd hj (by omega))).1 (by decide)).1⟩

/-! ## Failure-path cleanup (C9) -/

theorem mergeLoop_untouched (tmpOut p : String) (hp : p ≠ tmpOut) :
    ∀ (files : List String) (fs : Fs),
      ((mergeLoop fs tmpOut files).1) p = fs p := by
  intro files
  induction files with
  | nil => intro fs; rfl
  | cons f rest ih =>
    intro fs
    cases hd : fs f with
    | none => simp only [mergeLoop, hd]
    | some data =>
      simp only [mergeLoop, hd]
      rw [ih]
      exact fsSet_other _ _ _ _ hp

theorem mergeSegments_error_out (fs : Fs) (output : String)
    (files : List String) (e2 : String)
    (h : (mergeSegments fs output files).2 = Except.error e2) :
    (mergeSegments fs output files).1 output = fs output := by
  have hne : output ≠ tmpPath output := fun hc => tmpPath_ne_self output
    hc.symm
  cases hml : (mergeLoop (fsSet fs (tmpPath output) []) (tmpPath output)
      files).2 with
  | some missing =>
    simp only [mergeSegments, hml]
    rw [fsRemove_other _ _ _ hne, mergeLoop_untouched _ _ hne,
      fsSet_other _ _ _ _ hne]
  | none =>
    simp only [mergeSegments, hml] at h
    exact absurd h (by simp)

theorem mergeSegments_tmpgone (fs : Fs) (output : String)
    (files : List String) :
    (mergeSegments fs output files).1 (tmpPath output) = none := by
  have hne : tmpPath output ≠ output := tmpPath_ne_self output
  cases hml : (mergeLoop (fsSet fs (tmpPath output) []) (tmpPath output)
      files).2 with
  | some missing =>
    simp only [mergeSegments, hml]
    exact fsRemove_self _ _
  | none =>
    simp only [mergeSegments, hml]
    rw [fsSet_other _ _ _ _ hne, fsRemove_self]

theorem mergeSegments_untouched (fs : Fs) (output : String)
    (files : List String) (p : String) (hpo : p ≠ output)
    (hpt : p ≠ tmpPath output) :
    (mergeSegments fs output files).1 p = fs p := by
  cases hml : (mergeLoop (fsSet fs (tmpPath output) []) (tmpPath output)
      files).2 with
  | some missing =>
    simp only [mergeSegments, hml]
    rw [fsRemove_other _ _ _ hpt, mergeLoop_untouched _ _ hpt,
      fsSet_other _ _ _ _ hpt]
  | none =>
    simp only [mergeSegments, hml]
    split
    · rw [fsSet_other _ _ _ _ hpo, fsRemove_other _ _ _ hpt,
        fsRemove_other _ _ _ hpo, mergeLoop_untouched _ _ hpt,
        fsSet_other _ _ _ _ hpt]
    · rw [fsSet_other _ _ _ _ hpo, fsRemove_other _ _ _ hpt,
        mergeLoop_untouched _ _ hpt, fsSet_other _ _ _ _ hpt]

set_option maxRecDepth 400000 in
/-- C9 counterexample: a failing run (segment 2 never downloads, so the
pipeline aborts) leaves the successfully downloaded segment file — a
temporary artifact this run created in the staging directory, which only a
successful run removes — on disk: temporary artifacts are not all cleaned
up on the failure path. -/
theorem failure_cleanup_counterexample :
    (downloadPipeline "d" "out.mp4" 1 false
      (fun _ i => if i = 0 then FetchOutcome.success [71]
        else FetchOutcome.httpError 404)
      (fun _ l => l) 2 (fun _ => none)).2 =
      Except.error
        "error downloading segments: segment 2 failed to download after all retries" ∧
    ((fun _ => none : Fs) (segPath "d" 0) = none) ∧
    (downloadPipeline "d" "out.mp4" 1 false
      (fun _ i => if i = 0 then FetchOutcome.success [71]
        else FetchOutcome.httpError 404)
      (fun _ l => l) 2 (fun _ => none)).1 (segPath "d" 0) = some [71] := by
  refine ⟨by decide, rfl, by decide⟩

/-- C9 (amended): on every failure path of the pipeline (missing segment
after retries, empty-segment or validation failure, merge failure) the run
terminates with an error, the final output path is neither created nor
modified, and the merge's temporary output and every fetch's temporary
file are absent afterwards (given fresh temporary paths); however,
successfully downloaded segment files in the staging directory are left on
disk, since cleanup of the staging directory runs only after a successful
merge. -/
theorem failure_cleanup (dir output : String) (maxRetry : Nat)
    (validate : Bool) (att : Nat → Nat → FetchOutcome)
    (sched : Nat → List Nat → List Nat) (n : Nat) (fs : Fs) (e : String)
    (houts : lastChar output ≠ some 's')
    (houtp : lastChar output ≠ some 'p')
    (htmp0 : fs (tmpPath output) = none)
    (hsegtmp : ∀ i : Nat, fs (tmpPath (segPath dir i)) = none)
    (herr : (downloadPipeline dir output maxRetry validate att sched n fs).2
      = Except.error e) :
    (downloadPipeline dir output maxRetry validate att sched n fs).1 output
      = fs output ∧
    (downloadPipeline dir output maxRetry validate att sched n fs).1
      (tmpPath output) = none ∧
    (∀ i : Nat,
      (downloadPipeline dir output maxRetry validate att sched n fs).1
        (tmpPath (segPath dir i)) = none) := by
  have hout := output_untouched dir maxRetry att sched n fs output houts houtp
  have htoutne : ∀ i : Nat, tmpPath (segPath dir i) ≠ output := by
    intro i hc
    exact houtp (by rw [← hc, lastChar_tmp])
  have htouttne : ∀ i : Nat, tmpPath (segPath dir i) ≠ tmpPath output := by
    intro i hc
    exact houts (by rw [← tmpPath_inj hc, lastChar_segPath])
  cases hds : (downloadSegments dir maxRetry validate att sched n fs).2 with
  | error e2 =>
    have hpipe : downloadPipeline dir output maxRetry validate att sched n
        fs = ((downloadSegments dir maxRetry validate att sched n fs).1,
        Except.error ("error downloading segments: " ++ e2)) := by
      simp only [downloadPipeline, hds]
    rw [hpipe]
    refine ⟨hout.1, ?_, ?_⟩
    · rw [show (downloadSegments dir maxRetry validate att sched n fs).1
        = (downloadPhase dir maxRetry att sched n fs).1 from rfl]
      rw [hout.2]
      exact htmp0
    · intro i
      exact downloadPhase_tmp_none dir maxRetry att sched n fs i (hsegtmp i)
  | ok files =>
    cases hm : (mergeSegments
        (downloadSegments dir maxRetry validate att sched n fs).1 output
        files).2 with
    | error e2 =>
      have hpipe : downloadPipeline dir output maxRetry validate att sched
          n fs = ((mergeSegments
            (downloadSegments dir maxRetry validate att sched n fs).1
            output files).1,
          Except.error ("error merging segments: " ++ e2)) := by
        simp only [downloadPipeline, hds, hm]
      rw [hpipe]
      refine ⟨?_, ?_, ?_⟩
      · rw [mergeSegments_error_out _ _ _ _ hm]
        exact hout.1
      · exact mergeSegments_tmpgone _ _ _
      · intro i
        rw [mergeSegments_untouched _ _ _ _ (htoutne i) (htouttne i)]
        exact downloadPhase_tmp_none dir maxRetry att sched n fs i
          (hsegtmp i)
    | ok u =>
      have hpipe : (downloadPipeline dir output maxRetry validate att sched
          n fs).2 = Except.ok () := by
        simp only [downloadPipeline, hds, hm]
      rw [hpipe] at herr
      exact absurd herr (by simp)

set_option maxRecDepth 400000 in
/-- Witness for the amended C9 at a concrete input. -/
theorem failure_cleanup_witness :
    (downloadPipeline "d" "out.mp4" 1 false
      (fun _ i => if i = 0 then FetchOutcome.success [71]
        else FetchOutcome.httpError 404)
      (fun _ l => l) 2 (fun _ => none)).2 =
      Except.error
        "error downloading segments: segment 2 failed to download after all retries" ∧
    (downloadPipeline "d" "out.mp4" 1 false
      (fun _ i => if i = 0 then FetchOutcome.success [71]
        else FetchOutcome.httpError 404)
      (fun _ l => l) 2 (fun _ => none)).1 (tmpPath "out.mp4") = none :=
  ⟨by decide,
    (failure_cleanup "d" "out.mp4" 1 false
      (fun _ i => if i = 0 then FetchOutcome.success [71]
        else FetchOutcome.httpError 404)
      (fun _ l => l) 2 (fun _ => none)
      "error downloading segments: segment 2 failed to download after all retries"
      (by decide) (by decide) rfl (fun _ => rfl) (by decide)).2.1⟩

/-! ## Retry policy (C4) -/

/-- C4: the retry phase runs at most maxRetry rounds, and stops as soon as
the current failure set is empty: every executed round has a non-empty
incoming failure set, and if fewer than maxRetry rounds ran then the final
failure set is empty.  Executed rounds are numbered consecutively from 1;
round r sleeps backoffUnits r = r units before running, so the backoff
grows linearly with the round number.  Each round attempts exactly the
ordinals of the current failure set (the attempted list is the schedule's
permutation of it), the first round's failure set being the initial pass's
failures and each later round's being exactly the previously attempted
ordinals whose fetch failed again.  An ordinal whose attempt succeeds ends
with its result slot filled with its segment path and is never attempted
in any later round. -/
theorem retry_policy (dir : String) (maxRetry : Nat)
    (att : Nat → Nat → FetchOutcome) (sched : Nat → List Nat → List Nat)
    (n : Nat) (fs : Fs)
    (hsched : ∀ r l, List.Perm (sched r l) l) :
    ((downloadPhase dir maxRetry att sched n fs).2.2.2).length ≤ maxRetry ∧
    (((downloadPhase dir maxRetry att sched n fs).2.2.2).length < maxRetry →
      (downloadPhase dir maxRetry att sched n fs).2.2.1 = []) ∧
    (∀ (k : Nat) (e : RoundLog),
      ((downloadPhase dir maxRetry att sched n fs).2.2.2)[k]? = some e →
      e.round = k + 1 ∧ e.backoff = backoffUnits e.round ∧
      e.failedIn ≠ [] ∧
      e.attempted = sched e.round e.failedIn ∧
      (∀ i : Nat, i ∈ e.attempted ↔ i ∈ e.failedIn)) ∧
    (∀ e : RoundLog,
      ((downloadPhase dir maxRetry att sched n fs).2.2.2)[0]? = some e →
      e.failedIn = (sched 0 (List.range n)).filter
        (fun i => !fetchOk (att 0 i))) ∧
    (∀ (k : Nat) (e e2 : RoundLog),
      ((downloadPhase dir maxRetry att sched n fs).2.2.2)[k]? = some e →
      ((downloadPhase dir maxRetry att sched n fs).2.2.2)[k + 1]? = some e2 →
      e2.failedIn = e.attempted.filter
        (fun i => !fetchOk (att e.round i))) ∧
    (∀ (k : Nat) (e : RoundLog) (i : Nat),
      ((downloadPhase dir maxRetry att sched n fs).2.2.2)[k]? = some e →
      i ∈ e.attempted → fetchOk (att e.round i) = true →
      ((downloadPhase dir maxRetry att sched n fs).2.1)[i]?
        = some (some (segPath dir i)) ∧
      (∀ (k2 : Nat) (e2 : RoundLog), k < k2 →
        ((downloadPhase dir maxRetry att sched n fs).2.2.2)[k2]? = some e2 →
        i ∉ e2.attempted)) := by
  have hspec := retryRounds_log_spec dir att sched maxRetry 1
    (runRound dir (att 0) fs (List.replicate n none)
      (sched 0 (List.range n))).1
    (runRound dir (att 0) fs (List.replicate n none)
      (sched 0 (List.range n))).2.1
    (runRound dir (att 0) fs (List.replicate n none)
      (sched 0 (List.range n))).2.2
  refine ⟨?_, ?_, ?_, ?_, ?_, ?_⟩
  · rw [downloadPhase_eq]
    exact retryRounds_log_len dir att sched maxRetry 1 _ _ _
  · rw [downloadPhase_eq]
    exact retryRounds_budget dir att sched maxRetry 1 _ _ _
  · intro k e hk
    rw [downloadPhase_eq] at hk
    have h1 := hspec.1 k e hk
    refine ⟨by omega, ?_, h1.2.2.1, h1.2.2.2, ?_⟩
    · rw [h1.2.1]
      rfl
    · intro i
      rw [h1.2.2.2]
      exact (hsched e.round e.failedIn).mem_iff
  · intro e hk
    rw [downloadPhase_eq] at hk
    have h2 := hspec.2.1 e hk
    rw [h2, runRound_failed]
  · intro k e e2 hk hk2
    rw [downloadPhase_eq] at hk hk2
    have h3 := hspec.2.2 k e e2 hk hk2
    have h1 := hspec.1 k e hk
    rw [h3, h1.2.2.2]
  · intro k e i hk hmem hok
    rw [downloadPhase_eq] at hk ⊢
    have hbound : ∀ x ∈ (runRound dir (att 0) fs (List.replicate n none)
        (sched 0 (List.range n))).2.2,
        x < ((runRound dir (att 0) fs (List.replicate n none)
          (sched 0 (List.range n))).2.1).length := by
      intro x hx
      rw [runRound_slots_len, List.length_replicate]
      rw [runRound_failed] at hx
      exact List.mem_range.mp ((hsched 0 (List.range n)).mem_iff.mp
        (List.mem_of_mem_filter hx))
    exact retryRounds_success dir att sched hsched maxRetry 1 _ _ _ k e i
      hbound hk hmem hok

/-- Witness for C4 at a concrete input. -/
theorem retry_policy_witness :
    (∀ (r : Nat) (l : List Nat), List.Perm ((fun _ l => l :
      Nat → List Nat → List Nat) r l) l) ∧
    ((downloadPhase "d" 2
      (fun r _ => if r = 0 then FetchOutcome.httpError 500
        else FetchOutcome.success [71])
      (fun _ l => l) 1 (fun _ => none)).2.2.2).length ≤ 2 :=
  ⟨fun _ l => List.Perm.refl l,
    (retry_policy "d" 2
      (fun r _ => if r = 0 then FetchOutcome.httpError 500
        else FetchOutcome.success [71])
      (fun _ l => l) 1 (fun _ => none)
      (fun _ l => List.Perm.refl l)).1⟩

end M3U8
